import Mathlib

/-!
Shallow embedding of the abasic web execution driver (`src/ts/main.js`) and
console / input-history model (`src/abasic-web/ts/ui.ts`).

The BASIC engine itself (the wasm `JsInterpreter`) is external to the
repository; it is modelled abstractly as an observable state (execution
state, pending output queue, latest error) together with an arbitrary
behaviour function describing how the mutating engine calls
(`start_evaluating`, `provide_input`, `break_at_current_location`,
`continue_evaluating`, `randomize`) transform it.  `get_state`,
`take_latest_output` and `take_latest_error` are modelled structurally as
the observation / drain operations the TypeScript driver relies on.
All driver theorems quantify over every engine behaviour.
-/

namespace Abasic

/-- `JsInterpreterState` from the wasm binding, as used by `main.js`. -/
inductive JsInterpreterState
  | Idle
  | Running
  | AwaitingInput
  | Errored
deriving DecidableEq, Repr

/-- The diagnostic span classes of `ui.ts` (`type SpanClassName`). -/
inductive SpanClassName
  | error
  | errorContext
  | warning
  | info
deriving DecidableEq, Repr

/-- Numeric tags for `JsInterpreterOutputType`.  The binding delivers the
kind of an output item as a number; the concrete numbering lives in the
generated wasm glue (not part of the repository), so a representative
distinct numbering is fixed here.  Only distinctness matters to the
driver's `switch`. -/
def outPrint : Nat := 0

def outBreak : Nat := 1

def outWarning : Nat := 2

def outTrace : Nat := 3

def outExtraIgnored : Nat := 4

def outReenter : Nat := 5

/-- One drained output event: a numeric `output_type` tag plus its text
(the result of `into_string()`). -/
structure OutputItem where
  output_type : Nat
  text : String
deriving DecidableEq, Repr

/-- Mutating calls the driver can make on the engine. -/
inductive EngineCall
  | startEvaluating (line : String)
  | provideInput (value : String)
  | breakAtCurrentLocation
  | continueEvaluating
  | randomize (seed : Nat)
  | takeLatestOutput
  | takeLatestError
deriving DecidableEq, Repr

/-- Observable engine state: execution state, the pending (not yet
drained) output queue, the pending latest error, plus an abstract
internal component so behaviours may carry hidden state. -/
structure Engine where
  state : JsInterpreterState
  pending : List OutputItem
  latestError : Option String
  internal : Nat
deriving DecidableEq, Repr

/-- An arbitrary engine behaviour: how each mutating call transforms the
engine.  Driver theorems hold for every such behaviour. -/
structure EngineBehavior where
  step : EngineCall → Engine → Engine

/-- `take_latest_output()`: drains and returns the pending output queue. -/
def takeLatestOutput (e : Engine) : List OutputItem × Engine :=
  (e.pending, { e with pending := [] })

/-- `take_latest_error()`: drains and returns the latest error. -/
def takeLatestError (e : Engine) : Option String × Engine :=
  (e.latestError, { e with latestError := none })

/-! ### The console model (`src/abasic-web/ts/ui.ts`) -/

/-- A DOM node created by the console model.  Nodes are immutable after
creation in `ui.ts`; `id` records identity (so that `appendChild` moves
the *same* node between the output region and the prompt). -/
structure DomNode where
  id : Nat
  text : String
  cls : Option SpanClassName
deriving DecidableEq, Repr

/-- The whole mutable state of the `ui.ts` module: the children of
`#output` and `#prompt`, the `latestPartialLine` buffer (shared node
references), the `#input` element, and the input-history module state. -/
structure UIState where
  nextId : Nat
  outputChildren : List DomNode
  promptChildren : List DomNode
  latestPartialLine : List DomNode
  inputValue : String
  inputDisabled : Bool
  selStart : Nat
  selEnd : Nat
  temporaryInputHistory : List String
  temporaryInputHistoryIndex : Nat
  committedInputHistory : List String
deriving DecidableEq, Repr

/-- The `ui.ts` module as initially loaded: empty output and prompt,
empty partial line, `temporaryInputHistory = [""]` at index `0`. -/
def uiInit : UIState :=
  { nextId := 0
    outputChildren := []
    promptChildren := []
    latestPartialLine := []
    inputValue := ""
    inputDisabled := false
    selStart := 0
    selEnd := 0
    temporaryInputHistory := [""]
    temporaryInputHistoryIndex := 0
    committedInputHistory := [] }

/-- `text.endsWith("\n")` on the node text. -/
def endsWithNewline (s : String) : Bool :=
  s.data.getLast? = some '\n'

/-- Core of `ui.print`: create the node, track it in `latestPartialLine`
unless its text ends with a newline (in which case the buffer is
cleared), and append it to the output region. -/
def uiPrintCore (u : UIState) (text : String) (cls : Option SpanClassName) :
    UIState :=
  let node : DomNode := ⟨u.nextId, text, cls⟩
  { u with
    nextId := u.nextId + 1
    outputChildren := u.outputChildren ++ [node]
    latestPartialLine :=
      if endsWithNewline text then [] else u.latestPartialLine ++ [node] }

/-- `ui.print(msg)` with a plain string: a text node. -/
def uiPrint (u : UIState) (msg : String) : UIState :=
  uiPrintCore u msg none

/-- `ui.printSpanWithClass(msg, className)`: a span node routed through
`print`. -/
def uiPrintSpanWithClass (u : UIState) (msg : String) (cls : SpanClassName) :
    UIState :=
  uiPrintCore u msg (some cls)

/-- `ui.clearScreen()`: `outputEl.textContent = ""` — discards all
committed output nodes.  (`latestPartialLine` is not touched.) -/
def uiClearScreen (u : UIState) : UIState :=
  { u with outputChildren := [] }

/-- `ui.setPrompt(prompt)`: empty the prompt, then move every node of
`latestPartialLine` into the prompt (`appendChild` detaches each node
from the output region if it is still there), clear the buffer, and
append a fresh text node holding `prompt`. -/
def uiSetPrompt (u : UIState) (prompt : String) : UIState :=
  let movedIds := u.latestPartialLine.map DomNode.id
  let node : DomNode := ⟨u.nextId, prompt, none⟩
  if u.latestPartialLine.length > 0 then
    { u with
      nextId := u.nextId + 1
      outputChildren := u.outputChildren.filter (fun n => ¬ n.id ∈ movedIds)
      promptChildren := u.latestPartialLine ++ [node]
      latestPartialLine := [] }
  else
    { u with
      nextId := u.nextId + 1
      promptChildren := [node] }

/-- The `textContent` of the prompt element. -/
def promptText (u : UIState) : String :=
  String.join (u.promptChildren.map DomNode.text)

/-- The concatenated `textContent` of the output region. -/
def committedText (u : UIState) : String :=
  String.join (u.outputChildren.map DomNode.text)

/-- `ui.commitCurrentPromptToOutput(additionalText = "")`: append a
`prompt-response` div holding the prompt text plus the given suffix. -/
def uiCommitCurrentPromptToOutput (u : UIState) (additionalText : String) :
    UIState :=
  let node : DomNode := ⟨u.nextId, promptText u ++ additionalText, none⟩
  { u with
    nextId := u.nextId + 1
    outputChildren := u.outputChildren ++ [node] }

/-- `ui.getInput()`. -/
def uiGetInput (u : UIState) : String :=
  u.inputValue

/-- `ui.clearInput()`. -/
def uiClearInput (u : UIState) : UIState :=
  { u with inputValue := "" }

/-- `ui.clearPromptAndDisableInput()`: `setPrompt("")`, `clearInput()`,
`inputEl.disabled = true`. -/
def uiClearPromptAndDisableInput (u : UIState) : UIState :=
  let u1 := uiSetPrompt u ""
  let u2 := uiClearInput u1
  { u2 with inputDisabled := true }

/-! ### Input history (`ui.ts`, keydown and submit listeners) -/

/-- An arrow-key navigation direction. -/
inductive HistoryDir
  | up
  | down
deriving DecidableEq, Repr

/-- The `ArrowUp`/`ArrowDown` branch of the `keydown` listener installed
by `onInputKeyDown`: snapshot the live edit buffer into
`temporaryInputHistory[temporaryInputHistoryIndex]`, then move the index
by ±1 only if the result is within bounds, in which case that history
slot is loaded into the edit buffer and the selection is placed at its
end. -/
def uiArrowNav (u : UIState) (d : HistoryDir) : UIState :=
  let delta : Int := match d with | .up => -1 | .down => 1
  let snap :=
    { u with
      temporaryInputHistory :=
        u.temporaryInputHistory.set u.temporaryInputHistoryIndex
          u.inputValue }
  let newIndex : Int := (u.temporaryInputHistoryIndex : Int) + delta
  if 0 ≤ newIndex ∧ newIndex < (snap.temporaryInputHistory.length : Int) then
    let i := newIndex.toNat
    let v := snap.temporaryInputHistory.getD i ""
    { snap with
      temporaryInputHistoryIndex := i
      inputValue := v
      selStart := v.length
      selEnd := v.length }
  else
    snap

/-- The history-recording prefix of the `submit` listener installed by
`onSubmitInput`: a non-empty `inputEl.value` is appended to
`committedInputHistory`, `temporaryInputHistory` is rebuilt as
`committedInputHistory ++ [""]`, and the index is reset to its last
slot.  An empty value changes nothing.  This runs before the driver's
submit callback. -/
def uiRecordSubmission (u : UIState) : UIState :=
  if u.inputValue ≠ "" then
    let committed := u.committedInputHistory ++ [u.inputValue]
    let temp := committed ++ [""]
    { u with
      committedInputHistory := committed
      temporaryInputHistory := temp
      temporaryInputHistoryIndex := temp.length - 1 }
  else
    u

/-! ### The execution driver (`src/ts/main.js`) -/

/-- Faults: exceptions thrown by the driver (assertion failures and
contract violations), plus an artificial out-of-fuel marker for the
bounded model of the `Errored` re-entry recursion. -/
inductive Fault
  | unreachableOutputType (tag : Nat)
  | takeLatestErrorAbsent
  | submitInInvalidState (st : JsInterpreterState)
  | outOfFuel
deriving DecidableEq, Repr

/-- The `ui.*` calls (and other host effects) the driver performs, in
order.  `scheduleTimeout` records the `window.setTimeout` re-scheduling
of a turn; `consoleWarn` records the `console.warn` diagnostic for a
discarded source line. -/
inductive UIAction
  | print (msg : String)
  | printSpanWithClass (msg : String) (cls : SpanClassName)
  | setPrompt (prompt : String)
  | commitCurrentPromptToOutput (additionalText : String)
  | clearScreen
  | clearInput
  | clearPromptAndDisableInput
  | scheduleTimeout (ms : Nat)
  | consoleWarn (msg : String)
deriving DecidableEq, Repr

/-- The `ui.ts` semantics of each recorded action. -/
def applyUIAction (u : UIState) : UIAction → UIState
  | .print msg => uiPrint u msg
  | .printSpanWithClass msg cls => uiPrintSpanWithClass u msg cls
  | .setPrompt p => uiSetPrompt u p
  | .commitCurrentPromptToOutput t => uiCommitCurrentPromptToOutput u t
  | .clearScreen => uiClearScreen u
  | .clearInput => uiClearInput u
  | .clearPromptAndDisableInput => uiClearPromptAndDisableInput u
  | .scheduleTimeout _ => u
  | .consoleWarn _ => u

/-- One interactive session: the engine, the driver's
`isFullyInteractive` flag, and the console/history state. -/
structure Session where
  eng : Engine
  isFullyInteractive : Bool
  ui : UIState
deriving DecidableEq, Repr

/-- The result of running a piece of driver code: the session as left
behind (mutations before a thrown fault persist, as in JavaScript), the
mutating engine calls made, the UI actions performed, and the fault, if
one was thrown. -/
structure StepResult where
  sess : Session
  calls : List EngineCall
  acts : List UIAction
  fault : Option Fault
deriving DecidableEq, Repr

/-- Sequencing: if `r` threw, the continuation never runs; otherwise its
calls and actions are appended. -/
def StepResult.andThen (r : StepResult) (f : Session → StepResult) :
    StepResult :=
  match r.fault with
  | some _ => r
  | none =>
    let r2 := f r.sess
    ⟨r2.sess, r.calls ++ r2.calls, r.acts ++ r2.acts, r2.fault⟩

/-- A step that does nothing. -/
def StepResult.pure (s : Session) : StepResult :=
  ⟨s, [], [], none⟩

/-- Perform one UI action (recording it and applying its semantics). -/
def emit (s : Session) (a : UIAction) : StepResult :=
  ⟨{ s with ui := applyUIAction s.ui a }, [], [a], none⟩

/-- Perform a list of UI actions in order. -/
def emitAll (s : Session) : List UIAction → StepResult
  | [] => .pure s
  | a :: rest => (emit s a).andThen (fun s1 => emitAll s1 rest)

/-- Make one mutating engine call under behaviour `B`. -/
def callEngine (B : EngineBehavior) (s : Session) (c : EngineCall) :
    StepResult :=
  ⟨{ s with eng := B.step c s.eng }, [c], [], none⟩

/-- Render one drained output item, exactly as the `switch` in
`showOutput` does: `Print` prints the text verbatim; `Trace` prints the
text plus a space with class `info`; `Break`, `ExtraIgnored`, `Reenter`
and `Warning` print the text plus a newline with class `warning`; any
other tag hits `default: unreachable(...)`, a thrown assertion. -/
def renderItem (item : OutputItem) : Except Fault UIAction :=
  if item.output_type = outPrint then
    .ok (.print item.text)
  else if item.output_type = outTrace then
    .ok (.printSpanWithClass (item.text ++ " ") .info)
  else if item.output_type = outBreak ∨ item.output_type = outExtraIgnored ∨
      item.output_type = outReenter ∨ item.output_type = outWarning then
    .ok (.printSpanWithClass (item.text ++ "\n") .warning)
  else
    .error (.unreachableOutputType item.output_type)

/-- Pure description of rendering a whole drained queue: the action list
if every item is of a known kind, or the fault for the first unknown
tag. -/
def renderAll : List OutputItem → Except Fault (List UIAction)
  | [] => .ok []
  | item :: rest =>
    match renderItem item with
    | .ok a =>
      match renderAll rest with
      | .ok as => .ok (a :: as)
      | .error f => .error f
    | .error f => .error f

/-- The rendering loop of `showOutput`, with JavaScript exception
semantics: items before an unknown tag are already rendered when the
assertion is thrown. -/
def renderItems (s : Session) : List OutputItem → StepResult
  | [] => .pure s
  | item :: rest =>
    match renderItem item with
    | .ok a => (emit s a).andThen (fun s1 => renderItems s1 rest)
    | .error f => ⟨s, [], [], some f⟩

/-- `showOutput()`: drain `take_latest_output()` and render each item. -/
def showOutputStep (s : Session) : StepResult :=
  let drained := takeLatestOutput s.eng
  (⟨{ s with eng := drained.2 }, [.takeLatestOutput], [], none⟩ :
      StepResult).andThen
    (fun s1 => renderItems s1 drained.1)

/-- `err.split("\n")`, the JavaScript split with a one-character
separator: `""` yields `[""]`, and a trailing separator yields a
trailing empty piece. -/
def splitNewlineAux : List Char → List Char → List String
  | acc, [] => [String.mk acc.reverse]
  | acc, c :: rest =>
    if c = '\n' then String.mk acc.reverse :: splitNewlineAux [] rest
    else splitNewlineAux (c :: acc) rest

/-- `s.split("\n")` in JavaScript. -/
def jsSplitNewline (s : String) : List String :=
  splitNewlineAux [] s.data

/-- The rendering of one fetched error: each line of `err.split("\n")`
is printed with a trailing newline, the first with class `error` and
the rest with class `error-context`. -/
def errorLineActions (err : String) : List UIAction :=
  (jsSplitNewline err).mapIdx (fun i line =>
    .printSpanWithClass (line ++ "\n")
      (if i = 0 then .error else .errorContext))

/-- `handleCurrentState()` from `main.js`, with a fuel bound on the
synchronous `Errored` re-entry (the real code recurses directly; fuel
exhaustion is reported as the artificial `outOfFuel` fault).  The
`Running` case performs `continue_evaluating()` and records the
`window.setTimeout(handleCurrentState, 5)` re-scheduling, then
returns — the next turn is asynchronous. -/
def handleCurrentState (B : EngineBehavior) : Nat → Session → StepResult
  | 0, s => ⟨s, [], [], some .outOfFuel⟩
  | n + 1, s =>
    (showOutputStep s).andThen (fun s1 =>
      match s1.eng.state with
      | .Idle =>
        if ¬ s1.isFullyInteractive then
          emit s1 .clearPromptAndDisableInput
        else
          emit s1 (.setPrompt "] ")
      | .AwaitingInput => emit s1 (.setPrompt "? ")
      | .Errored =>
        let drained := takeLatestError s1.eng
        let s2 := { s1 with eng := drained.2 }
        match drained.1 with
        | none => ⟨s2, [.takeLatestError], [], some .takeLatestErrorAbsent⟩
        | some err =>
          (⟨s2, [.takeLatestError], [], none⟩ : StepResult).andThen
            (fun s3 =>
              (emitAll s3 (errorLineActions err)).andThen (fun s4 =>
                handleCurrentState B n s4))
      | .Running =>
        (callEngine B s1 .continueEvaluating).andThen (fun s2 =>
          emit s2 (.scheduleTimeout 5)))

/-- `canProcessUserInput()`. -/
def canProcessUserInput (s : Session) : Bool :=
  s.eng.state == .Idle || s.eng.state == .AwaitingInput

/-- `canBreak()`. -/
def canBreak (s : Session) : Bool :=
  s.eng.state != .Idle

/-- `submitUserInput(input)`: in `Idle`, start evaluating the input as a
new command; in `AwaitingInput`, provide it as the pending `INPUT`
value; in both cases clear the prompt and take a turn.  In any other
state, throw — with no mutating engine call and no mutation at all. -/
def submitUserInput (B : EngineBehavior) (fuel : Nat) (s : Session)
    (input : String) : StepResult :=
  let st := s.eng.state
  if st = .Idle then
    (callEngine B s (.startEvaluating input)).andThen (fun s1 =>
      (emit s1 (.setPrompt "")).andThen (fun s2 =>
        handleCurrentState B fuel s2))
  else if st = .AwaitingInput then
    (callEngine B s (.provideInput input)).andThen (fun s1 =>
      (emit s1 (.setPrompt "")).andThen (fun s2 =>
        handleCurrentState B fuel s2))
  else
    ⟨s, [], [], some (.submitInInvalidState st)⟩

/-- `breakAtCurrentLocation()`: only when the state is `AwaitingInput`
or `Running`, become fully interactive, commit the prompt to output,
clear the prompt, request the engine break, and take a turn; otherwise
do nothing at all. -/
def breakAtCurrentLocation (B : EngineBehavior) (fuel : Nat) (s : Session) :
    StepResult :=
  if s.eng.state = .AwaitingInput ∨ s.eng.state = .Running then
    (StepResult.pure { s with isFullyInteractive := true }).andThen
      (fun s1 =>
        (emit s1 (.commitCurrentPromptToOutput "")).andThen (fun s2 =>
          (emit s2 (.setPrompt "")).andThen (fun s3 =>
            (callEngine B s3 .breakAtCurrentLocation).andThen (fun s4 =>
              handleCurrentState B fuel s4))))
  else
    .pure s

/-- Whitespace for the purposes of `line.trim()` (the characters that
can occur in the repository's program texts). -/
def isJsWhitespaceChar (c : Char) : Bool :=
  c = ' ' || c = '\t' || c = '\r' || c = '\n'

/-- `!line.trim()`: the line is empty or all whitespace. -/
def isBlankLine (s : String) : Bool :=
  s.data.all isJsWhitespaceChar

/-- `/^[0-9]/.test(line)`: the first character of the line is a decimal
digit. -/
def startsWithDigit (s : String) : Bool :=
  match s.data with
  | [] => false
  | c :: _ => c.isDigit

/-- The loop body of `loadAndRunSourceCode`: skip blank lines silently,
discard non-numbered lines with a `console.warn` diagnostic, and feed
every line passing `/^[0-9]/` to `start_evaluating`. -/
def feedSourceLines (B : EngineBehavior) : Session → List String → StepResult
  | s, [] => .pure s
  | s, line :: rest =>
    if isBlankLine line then
      feedSourceLines B s rest
    else if ¬ startsWithDigit line then
      (emit s (.consoleWarn ("Skipping line, as it is not numbered: " ++
          line))).andThen
        (fun s1 => feedSourceLines B s1 rest)
    else
      (callEngine B s (.startEvaluating line)).andThen (fun s1 =>
        feedSourceLines B s1 rest)

/-- `loadAndRunSourceCode(sourceCode)`: mark the session batch-loaded
(`isFullyInteractive = false`), split on `"\n"`, run the loop, then
submit the synthetic `RUN` command. -/
def loadAndRunSourceCode (B : EngineBehavior) (s : Session)
    (sourceCode : String) : StepResult :=
  (feedSourceLines B { s with isFullyInteractive := false }
      (jsSplitNewline sourceCode)).andThen
    (fun s1 => callEngine B s1 (.startEvaluating "RUN"))

/-- `start()`: print the welcome banner when fully interactive, then
take a turn. -/
def startDriver (B : EngineBehavior) (fuel : Nat) (s : Session) :
    StepResult :=
  (if s.isFullyInteractive then
      emit s (.print "Welcome to Atul's BASIC Interpreter v0.3.0.\n")
    else
      StepResult.pure s).andThen
    (fun s1 => handleCurrentState B fuel s1)

/-- The break emoji accepted by the submit handler in place of CTRL-C. -/
def breakEmoji : String := "💥"

/-- The `submit` callback registered by `main.js` (the part after the
history-recording prefix of the `ui.ts` listener): a submission of the
break emoji while `canBreak()` clears the input and breaks; otherwise,
when input cannot be processed, the submission is ignored; otherwise
the prompt plus input is committed to output, the input is submitted,
and the edit buffer is cleared. -/
def onSubmitCallback (B : EngineBehavior) (fuel : Nat) (s : Session) :
    StepResult :=
  let input := uiGetInput s.ui
  if canBreak s = true ∧ input = breakEmoji then
    (emit s .clearInput).andThen (fun s1 =>
      breakAtCurrentLocation B fuel s1)
  else if canProcessUserInput s = false then
    .pure s
  else
    (emit s (.commitCurrentPromptToOutput input)).andThen (fun s1 =>
      (submitUserInput B fuel s1 input).andThen (fun s2 =>
        emit s2 .clearInput))

/-- A whole form submission: the user's edit buffer holds `text` (caret
collapsed at its end), then the `ui.ts` listener records the submission
into the input history and only afterwards invokes the driver
callback. -/
def onFormSubmit (B : EngineBehavior) (fuel : Nat) (s : Session)
    (text : String) : StepResult :=
  let s0 : Session :=
    { s with ui := { s.ui with
        inputValue := text, selStart := text.length, selEnd := text.length } }
  (StepResult.pure { s0 with ui := uiRecordSubmission s0.ui }).andThen
    (fun s1 => onSubmitCallback B fuel s1)

/-- The CTRL-C `keydown` callback of `main.js`: ignored while a text
selection is active, otherwise `breakAtCurrentLocation()`. -/
def onCtrlC (B : EngineBehavior) (fuel : Nat) (s : Session) : StepResult :=
  if s.ui.selStart ≠ s.ui.selEnd then
    .pure s
  else
    breakAtCurrentLocation B fuel s

/-- The host-level events a session can experience. -/
inductive SessionEvent
  | load (sourceCode : String)
  | start
  | formSubmit (text : String)
  | ctrlC
  | arrow (d : HistoryDir)
  | select (a b : Nat)
  | timerFire
  | clearScreenEvent
deriving DecidableEq, Repr

/-- Dispatch one host event. -/
def stepEvent (B : EngineBehavior) (fuel : Nat) (s : Session) :
    SessionEvent → StepResult
  | .load src => loadAndRunSourceCode B s src
  | .start => startDriver B fuel s
  | .formSubmit text => onFormSubmit B fuel s text
  | .ctrlC => onCtrlC B fuel s
  | .arrow d => .pure { s with ui := uiArrowNav s.ui d }
  | .select a b =>
    .pure { s with ui := { s.ui with selStart := a, selEnd := b } }
  | .timerFire => handleCurrentState B fuel s
  | .clearScreenEvent => emit s .clearScreen

/-- Replay a list of host events.  A fault thrown inside one event
handler leaves the mutations made so far in place and the next event
still runs, as in a browser. -/
def replay (B : EngineBehavior) (fuel : Nat) (s : Session) :
    List SessionEvent → Session
  | [] => s
  | e :: rest => replay B fuel (stepEvent B fuel s e).sess rest

/-- A fresh session, as built by the `Interpreter` constructor: the
engine is seeded exactly once and `isFullyInteractive` starts `true`. -/
def initSession (B : EngineBehavior) (e0 : Engine) (seed : Nat) : Session :=
  { eng := B.step (.randomize seed) e0
    isFullyInteractive := true
    ui := uiInit }

/-! ### Claim-side predicates

These definitions follow the words of the specification sentences under
audit (not the code); the theorems relate them to the embedded code. -/

/-- The states in which `breakAtCurrentLocation` actually breaks. -/
def breakConditionHolds (s : Session) : Bool :=
  s.eng.state == .AwaitingInput || s.eng.state == .Running

/-- Whether a host event is a break that actually takes effect: a
CTRL-C with no active selection, or a submission of the break emoji,
while the engine is in a breakable state. -/
def isEffectiveBreak (s : Session) : SessionEvent → Bool
  | .ctrlC => (s.ui.selStart == s.ui.selEnd) && breakConditionHolds s
  | .formSubmit text => (text == breakEmoji) && breakConditionHolds s
  | _ => false

/-- No effective break occurs anywhere in the event list (replayed from
`s`). -/
def noEffectiveBreak (B : EngineBehavior) (fuel : Nat) (s : Session) :
    List SessionEvent → Bool
  | [] => true
  | e :: rest =>
    !isEffectiveBreak s e &&
      noEffectiveBreak B fuel (stepEvent B fuel s e).sess rest

/-- Whether a host event is a batch load. -/
def isLoadEvent : SessionEvent → Bool
  | .load _ => true
  | _ => false

/-- The claim's session condition, from its words: `loadAndRunSourceCode`
was called, and no break has occurred since — i.e. some load event is
followed by no effective break. -/
def batchLoadedAndUnbroken (B : EngineBehavior) (fuel : Nat) (s : Session) :
    List SessionEvent → Bool
  | [] => false
  | e :: rest =>
    let s' := (stepEvent B fuel s e).sess
    (isLoadEvent e && noEffectiveBreak B fuel s' rest) ||
      batchLoadedAndUnbroken B fuel s' rest

/-- The claim's line predicate, from its words: the first non-space
character of the line is a decimal digit. -/
def firstNonSpaceIsDigit (s : String) : Bool :=
  match s.data.dropWhile (fun c => c = ' ') with
  | [] => false
  | c :: _ => c.isDigit

/-! ### Concrete fixtures for witnesses -/

/-- An inert engine behaviour: every mutating call leaves the engine
unchanged. -/
def inertBehavior : EngineBehavior :=
  ⟨fun _ e => e⟩

/-- An idle engine with nothing pending. -/
def engIdle : Engine :=
  ⟨.Idle, [], none, 0⟩

/-- A session sitting at the interactive idle prompt. -/
def sessIdle : Session :=
  ⟨engIdle, true, uiInit⟩

/-- An engine sitting in the `Errored` state with a pending error. -/
def engErrored : Engine :=
  ⟨.Errored, [], some "Syntax error in line 10", 0⟩

/-- A session whose engine is `Errored`. -/
def sessErrored : Session :=
  ⟨engErrored, true, uiInit⟩

/-- An engine waiting for `INPUT`. -/
def engAwaiting : Engine :=
  ⟨.AwaitingInput, [], none, 0⟩

/-- A session whose engine awaits input. -/
def sessAwaiting : Session :=
  ⟨engAwaiting, true, uiInit⟩

/-- A running engine. -/
def engRunning : Engine :=
  ⟨.Running, [], none, 0⟩

/-- A session whose engine is running. -/
def sessRunning : Session :=
  ⟨engRunning, true, uiInit⟩

/-- A console state with one committed entry, cursor on the trailing
empty slot, and `"B"` live in the edit buffer. -/
def uiHistLast : UIState :=
  { uiInit with
    temporaryInputHistory := ["A", ""]
    temporaryInputHistoryIndex := 1
    inputValue := "B" }

/-- A console state with the cursor already on the first slot. -/
def uiHistFirst : UIState :=
  { uiInit with
    temporaryInputHistory := ["A", "B"]
    temporaryInputHistoryIndex := 0
    inputValue := "C" }

/-- A console state with `"RUN"` typed but not yet submitted. -/
def uiRunPending : UIState :=
  { uiInit with inputValue := "RUN" }

/-- Folding a list of UI actions over the console state. -/
def applyActs (u : UIState) (acts : List UIAction) : UIState :=
  acts.foldl applyUIAction u

/-- A session projection untouched by every UI action and by every
engine replacement.  `handleCurrentState` and `submitUserInput` only
mutate the session through those two channels. -/
def EmitInvariant {α : Type} (g : Session → α) : Prop :=
  (∀ (s : Session) (a : UIAction),
    g { s with ui := applyUIAction s.ui a } = g s) ∧
  (∀ (s : Session) (e : Engine), g { s with eng := e } = g s)

/-- A projection additionally untouched by flipping
`isFullyInteractive` — everything the whole submit pipeline can do. -/
def DriverInvariant {α : Type} (g : Session → α) : Prop :=
  EmitInvariant g ∧
  (∀ (s : Session) (b : Bool), g { s with isFullyInteractive := b } = g s)

/-- The input-history triple of the console state: committed history,
navigation scratch buffer, and cursor index. -/
def histOf (s : Session) : List String × List String × Nat :=
  (s.ui.committedInputHistory, s.ui.temporaryInputHistory,
    s.ui.temporaryInputHistoryIndex)

/-! ### Helper lemmas -/

theorem andThen_fault_none {r : StepResult} (h : r.fault = none)
    (f : Session → StepResult) :
    r.andThen f =
      ⟨(f r.sess).sess, r.calls ++ (f r.sess).calls,
        r.acts ++ (f r.sess).acts, (f r.sess).fault⟩ := by
  unfold StepResult.andThen
  rw [h]

theorem whitespace_not_digit {c : Char} (h : isJsWhitespaceChar c = true) :
    c.isDigit = false := by
  unfold isJsWhitespaceChar at h
  simp only [Bool.or_eq_true, decide_eq_true_eq] at h
  rcases h with ((h | h) | h) | h <;> subst h <;> decide

theorem blank_not_digit {l : String} (h : isBlankLine l = true) :
    startsWithDigit l = false := by
  unfold isBlankLine at h
  unfold startsWithDigit
  cases hd : l.data with
  | nil => rfl
  | cons c cs =>
    rw [hd] at h
    simp only [List.all_cons, Bool.and_eq_true] at h
    exact whitespace_not_digit h.1

theorem feedSourceLines_calls (B : EngineBehavior) :
    ∀ (lines : List String) (s : Session),
      (feedSourceLines B s lines).calls =
        (lines.filter startsWithDigit).map EngineCall.startEvaluating ∧
      (feedSourceLines B s lines).acts =
        (lines.filter
            (fun l => !isBlankLine l && !startsWithDigit l)).map
          (fun l =>
            UIAction.consoleWarn
              ("Skipping line, as it is not numbered: " ++ l)) ∧
      (feedSourceLines B s lines).fault = none := by
  intro lines
  induction lines with
  | nil => intro s; exact ⟨rfl, rfl, rfl⟩
  | cons line rest ih =>
    intro s
    by_cases hb : isBlankLine line = true
    · have hd : startsWithDigit line = false := blank_not_digit hb
      simp only [feedSourceLines, hb, if_true, List.filter_cons, hd,
        Bool.not_true, Bool.false_and, if_false, Bool.and_false]
      exact ih s
    · have hb' : isBlankLine line = false := by
        cases h : isBlankLine line
        · rfl
        · exact absurd h hb
      by_cases hd : startsWithDigit line = true
      · simp only [feedSourceLines, hb', Bool.false_eq_true, if_false,
          hd, not_true, if_true, List.filter_cons, Bool.not_true,
          Bool.and_false]
        rw [andThen_fault_none rfl]
        refine ⟨?_, ?_, ?_⟩
        · simp only [callEngine, List.map_cons]
          rw [(ih _).1]
          rfl
        · simpa [callEngine] using (ih _).2.1
        · simpa [callEngine] using (ih _).2.2
      · have hd' : startsWithDigit line = false := by
          cases h : startsWithDigit line
          · rfl
          · exact absurd h hd
        simp only [feedSourceLines, hb', Bool.false_eq_true, if_false,
          hd', not_false_iff, if_true, List.filter_cons, Bool.not_false,
          Bool.true_and]
        rw [andThen_fault_none rfl]
        refine ⟨?_, ?_, ?_⟩
        · simpa [emit] using (ih _).1
        · simp only [emit, List.map_cons]
          rw [(ih _).2.1]
          rfl
        · simpa [emit] using (ih _).2.2

theorem andThen_assoc (r : StepResult) (f g : Session → StepResult) :
    (r.andThen f).andThen g = r.andThen (fun s => (f s).andThen g) := by
  unfold StepResult.andThen
  cases hf : r.fault with
  | some _ => simp [hf]
  | none =>
    cases hg : (f r.sess).fault with
    | some _ => simp [hf, hg]
    | none => simp [hf, hg, List.append_assoc]

theorem andThen_sess_proj {α : Type} (g : Session → α) (r : StepResult)
    (f : Session → StepResult) (hf : ∀ s, g (f s).sess = g s) :
    g (r.andThen f).sess = g r.sess := by
  unfold StepResult.andThen
  cases r.fault with
  | some _ => rfl
  | none => exact hf r.sess

theorem renderItems_inv {α : Type} {g : Session → α} (hg : EmitInvariant g) :
    ∀ (items : List OutputItem) (s : Session),
      g (renderItems s items).sess = g s := by
  intro items
  induction items with
  | nil => intro s; rfl
  | cons item rest ih =>
    intro s
    unfold renderItems
    cases renderItem item with
    | ok a =>
      simp only []
      rw [andThen_sess_proj g _ _ ih]
      exact hg.1 s a
    | error f => rfl

theorem emitAll_inv {α : Type} {g : Session → α} (hg : EmitInvariant g) :
    ∀ (acts : List UIAction) (s : Session),
      g (emitAll s acts).sess = g s := by
  intro acts
  induction acts with
  | nil => intro s; rfl
  | cons a rest ih =>
    intro s
    unfold emitAll
    rw [andThen_sess_proj g _ _ ih]
    exact hg.1 s a

theorem showOutputStep_inv {α : Type} {g : Session → α}
    (hg : EmitInvariant g) (s : Session) :
    g (showOutputStep s).sess = g s := by
  unfold showOutputStep
  rw [andThen_sess_proj g _ _ (fun s1 => renderItems_inv hg _ s1)]
  exact hg.2 s _

theorem handleCurrentState_inv {α : Type} {g : Session → α}
    (hg : EmitInvariant g) (B : EngineBehavior) :
    ∀ (n : Nat) (s : Session), g (handleCurrentState B n s).sess = g s := by
  intro n
  induction n with
  | zero => intro s; rfl
  | succ n ih =>
    intro s
    unfold handleCurrentState
    rw [andThen_sess_proj g]
    · exact showOutputStep_inv hg s
    · intro s1
      cases hst : s1.eng.state with
      | Idle =>
        simp only [hst]
        split
        · exact hg.1 s1 _
        · exact hg.1 s1 _
      | AwaitingInput => simp only [hst]; exact hg.1 s1 _
      | Errored =>
        simp only [hst]
        cases herr : s1.eng.latestError with
        | none => simp [takeLatestError, herr, hg.2]
        | some err =>
          simp only [takeLatestError, herr]
          rw [andThen_sess_proj g]
          · exact hg.2 s1 _
          · intro s3
            rw [andThen_sess_proj g _ _ ih]
            exact emitAll_inv hg _ s3
      | Running =>
        simp only [hst]
        rw [andThen_sess_proj g]
        · exact hg.2 s1 _
        · intro s2; exact hg.1 s2 _

theorem submitUserInput_inv {α : Type} {g : Session → α}
    (hg : EmitInvariant g) (B : EngineBehavior) (fuel : Nat) (s : Session)
    (input : String) :
    g (submitUserInput B fuel s input).sess = g s := by
  unfold submitUserInput
  by_cases h1 : s.eng.state = .Idle
  · rw [if_pos h1]
    rw [andThen_sess_proj g]
    · exact hg.2 s _
    · intro s1
      rw [andThen_sess_proj g _ _ (handleCurrentState_inv hg B fuel)]
      exact hg.1 s1 _
  · by_cases h2 : s.eng.state = .AwaitingInput
    · rw [if_neg h1, if_pos h2]
      rw [andThen_sess_proj g]
      · exact hg.2 s _
      · intro s1
        rw [andThen_sess_proj g _ _ (handleCurrentState_inv hg B fuel)]
        exact hg.1 s1 _
    · rw [if_neg h1, if_neg h2]

theorem breakAtCurrentLocation_inv {α : Type} {g : Session → α}
    (hg : DriverInvariant g) (B : EngineBehavior) (fuel : Nat)
    (s : Session) :
    g (breakAtCurrentLocation B fuel s).sess = g s := by
  unfold breakAtCurrentLocation
  by_cases h : s.eng.state = .AwaitingInput ∨ s.eng.state = .Running
  · simp only [h, if_true]
    rw [andThen_sess_proj g]
    · exact hg.2 s _
    · intro s1
      rw [andThen_sess_proj g]
      · exact hg.1.1 s1 _
      · intro s2
        rw [andThen_sess_proj g]
        · exact hg.1.1 s2 _
        · intro s3
          rw [andThen_sess_proj g _ _ (handleCurrentState_inv hg.1 B fuel)]
          exact hg.1.2 s3 _
  · simp only [h, if_false]
    rfl

theorem flag_emitInvariant :
    EmitInvariant (fun s : Session => s.isFullyInteractive) :=
  ⟨fun _ _ => rfl, fun _ _ => rfl⟩

theorem feedSourceLines_inv {α : Type} {g : Session → α}
    (hg : EmitInvariant g) (B : EngineBehavior) :
    ∀ (lines : List String) (s : Session),
      g (feedSourceLines B s lines).sess = g s := by
  intro lines
  induction lines with
  | nil => intro s; rfl
  | cons line rest ih =>
    intro s
    unfold feedSourceLines
    split
    · exact ih s
    · split
      · rw [andThen_sess_proj g _ _ ih]
        exact hg.1 s _
      · rw [andThen_sess_proj g _ _ ih]
        exact hg.2 s _

theorem loadAndRunSourceCode_flag (B : EngineBehavior) (s : Session)
    (src : String) :
    (loadAndRunSourceCode B s src).sess.isFullyInteractive = false := by
  unfold loadAndRunSourceCode
  rw [andThen_sess_proj (fun s : Session => s.isFullyInteractive) _ _
    (fun s1 => rfl)]
  exact feedSourceLines_inv flag_emitInvariant B _ _

theorem breakConditionHolds_iff (s : Session) :
    breakConditionHolds s = true ↔
      s.eng.state = .AwaitingInput ∨ s.eng.state = .Running := by
  unfold breakConditionHolds
  cases s.eng.state <;> simp

theorem breakAtCurrentLocation_flag (B : EngineBehavior) (fuel : Nat)
    (s : Session) :
    (breakAtCurrentLocation B fuel s).sess.isFullyInteractive =
      if breakConditionHolds s then true else s.isFullyInteractive := by
  unfold breakAtCurrentLocation
  by_cases h : s.eng.state = .AwaitingInput ∨ s.eng.state = .Running
  · rw [if_pos h, if_pos ((breakConditionHolds_iff s).2 h)]
    rw [andThen_sess_proj (fun s : Session => s.isFullyInteractive)]
    · rfl
    · intro s1
      rw [andThen_sess_proj (fun s : Session => s.isFullyInteractive)]
      · rfl
      · intro s2
        rw [andThen_sess_proj (fun s : Session => s.isFullyInteractive)]
        · rfl
        · intro s3
          rw [andThen_sess_proj (fun s : Session => s.isFullyInteractive) _ _
            (handleCurrentState_inv flag_emitInvariant B fuel)]
          rfl
  · rw [if_neg h]
    have hb : breakConditionHolds s = false := by
      cases hbc : breakConditionHolds s
      · rfl
      · exact absurd ((breakConditionHolds_iff s).1 hbc) h
    rw [hb]
    simp [StepResult.pure]

theorem uiRecordSubmission_inputValue (u : UIState) :
    (uiRecordSubmission u).inputValue = u.inputValue := by
  unfold uiRecordSubmission
  split <;> rfl

theorem onSubmitCallback_flag (B : EngineBehavior) (fuel : Nat)
    (s : Session) :
    (onSubmitCallback B fuel s).sess.isFullyInteractive =
      if (uiGetInput s.ui == breakEmoji) && breakConditionHolds s then true
      else s.isFullyInteractive := by
  unfold onSubmitCallback
  by_cases hc : canBreak s = true ∧ uiGetInput s.ui = breakEmoji
  · rw [if_pos hc]
    have h1 : ((emit s .clearInput).andThen
        (fun s1 => breakAtCurrentLocation B fuel s1)).sess =
        (breakAtCurrentLocation B fuel
          { s with ui := applyUIAction s.ui .clearInput }).sess := rfl
    rw [h1, breakAtCurrentLocation_flag]
    have h2 : breakConditionHolds
        { s with ui := applyUIAction s.ui .clearInput } =
        breakConditionHolds s := rfl
    rw [h2]
    have h3 : (uiGetInput s.ui == breakEmoji) = true := by
      simp [hc.2]
    rw [h3]
    cases hbc : breakConditionHolds s <;> simp
  · rw [if_neg hc]
    have hfalse : ((uiGetInput s.ui == breakEmoji) &&
        breakConditionHolds s) = false := by
      cases he : uiGetInput s.ui == breakEmoji
      · simp
      · have he' : uiGetInput s.ui = breakEmoji := by
          exact eq_of_beq he
        cases hst : s.eng.state with
        | Idle => simp [breakConditionHolds, hst]
        | Running => exact absurd ⟨by simp [canBreak, hst], he'⟩ hc
        | AwaitingInput => exact absurd ⟨by simp [canBreak, hst], he'⟩ hc
        | Errored => simp [breakConditionHolds, hst]
    rw [hfalse]
    simp only [Bool.false_eq_true, if_false]
    split
    · rfl
    · rw [andThen_sess_proj (fun s : Session => s.isFullyInteractive)]
      · rfl
      · intro s1
        rw [andThen_sess_proj (fun s : Session => s.isFullyInteractive)]
        · exact submitUserInput_inv flag_emitInvariant B fuel s1 _
        · intro s2; rfl

theorem onFormSubmit_flag (B : EngineBehavior) (fuel : Nat) (s : Session)
    (text : String) :
    (onFormSubmit B fuel s text).sess.isFullyInteractive =
      if (text == breakEmoji) && breakConditionHolds s then true
      else s.isFullyInteractive := by
  unfold onFormSubmit
  have h1 : ∀ s1 : Session,
      ((StepResult.pure s1).andThen (onSubmitCallback B fuel)).sess =
        (onSubmitCallback B fuel s1).sess := fun _ => rfl
  rw [h1, onSubmitCallback_flag]
  have h2 : ∀ u : UIState,
      uiGetInput (uiRecordSubmission u) = u.inputValue := by
    intro u
    unfold uiGetInput
    rw [uiRecordSubmission_inputValue]
  rw [h2]
  rfl

theorem onCtrlC_flag (B : EngineBehavior) (fuel : Nat) (s : Session) :
    (onCtrlC B fuel s).sess.isFullyInteractive =
      if (s.ui.selStart == s.ui.selEnd) && breakConditionHolds s then true
      else s.isFullyInteractive := by
  unfold onCtrlC
  by_cases hsel : s.ui.selStart ≠ s.ui.selEnd
  · rw [if_pos hsel]
    have : (s.ui.selStart == s.ui.selEnd) = false := by
      simp [hsel]
    rw [this]
    simp [StepResult.pure]
  · rw [if_neg hsel]
    push_neg at hsel
    rw [breakAtCurrentLocation_flag]
    have : (s.ui.selStart == s.ui.selEnd) = true := by
      simp [hsel]
    rw [this]
    simp

theorem startDriver_flag (B : EngineBehavior) (fuel : Nat) (s : Session) :
    (startDriver B fuel s).sess.isFullyInteractive =
      s.isFullyInteractive := by
  unfold startDriver
  rw [andThen_sess_proj (fun s : Session => s.isFullyInteractive) _ _
    (handleCurrentState_inv flag_emitInvariant B fuel)]
  split <;> rfl

theorem stepEvent_flag (B : EngineBehavior) (fuel : Nat) (s : Session)
    (e : SessionEvent) :
    (stepEvent B fuel s e).sess.isFullyInteractive =
      if isLoadEvent e then false
      else if isEffectiveBreak s e then true
      else s.isFullyInteractive := by
  cases e with
  | load src =>
    simp only [stepEvent, isLoadEvent, if_true]
    exact loadAndRunSourceCode_flag B s src
  | start =>
    simp only [stepEvent, isLoadEvent, isEffectiveBreak,
      Bool.false_eq_true, if_false]
    exact startDriver_flag B fuel s
  | formSubmit text =>
    simp only [stepEvent, isLoadEvent, isEffectiveBreak,
      Bool.false_eq_true, if_false]
    rw [onFormSubmit_flag]
  | ctrlC =>
    simp only [stepEvent, isLoadEvent, isEffectiveBreak,
      Bool.false_eq_true, if_false]
    rw [onCtrlC_flag]
  | arrow d =>
    simp only [stepEvent, isLoadEvent, isEffectiveBreak,
      Bool.false_eq_true, if_false]
    rfl
  | select a b =>
    simp only [stepEvent, isLoadEvent, isEffectiveBreak,
      Bool.false_eq_true, if_false]
    rfl
  | timerFire =>
    simp only [stepEvent, isLoadEvent, isEffectiveBreak,
      Bool.false_eq_true, if_false]
    exact handleCurrentState_inv flag_emitInvariant B fuel s
  | clearScreenEvent =>
    simp only [stepEvent, isLoadEvent, isEffectiveBreak,
      Bool.false_eq_true, if_false]
    rfl

/-! ### C5 -/

/-- C5 counterexample: the line `"  10 PRINT X"` has a decimal digit as
its first non-space character, so the claim says it is fed to the
Engine — but `loadAndRunSourceCode` tests `/^[0-9]/` against the raw
line, discards it with a diagnostic, and feeds only the synthetic
`RUN`. -/
theorem c5_counterexample :
    firstNonSpaceIsDigit "  10 PRINT X" = true ∧
    (loadAndRunSourceCode inertBehavior sessIdle "  10 PRINT X").calls =
      [.startEvaluating "RUN"] ∧
    (loadAndRunSourceCode inertBehavior sessIdle "  10 PRINT X").acts =
      [.consoleWarn
        ("Skipping line, as it is not numbered: " ++ "  10 PRINT X")] := by
  refine ⟨by decide, ?_, ?_⟩ <;> decide

/-- C5 (amended): for every source text passed to
`loadAndRunSourceCode`, a physical line is fed to the Engine if and
only if its first character (not its first non-space character) is a
decimal digit; every non-blank line not starting with a digit is
discarded with a diagnostic and never reaches the Engine; blank
(whitespace-only) lines are skipped silently; the synthetic `RUN` is
fed last. -/
theorem c5_feeds_exactly_digit_prefixed_lines (B : EngineBehavior)
    (s : Session) (src : String) :
    (loadAndRunSourceCode B s src).calls =
      ((jsSplitNewline src).filter startsWithDigit).map
          EngineCall.startEvaluating ++ [.startEvaluating "RUN"] ∧
    (loadAndRunSourceCode B s src).acts =
      ((jsSplitNewline src).filter
          (fun l => !isBlankLine l && !startsWithDigit l)).map
        (fun l =>
          UIAction.consoleWarn
            ("Skipping line, as it is not numbered: " ++ l)) ∧
    (loadAndRunSourceCode B s src).fault = none := by
  unfold loadAndRunSourceCode
  rw [andThen_fault_none
    (feedSourceLines_calls B (jsSplitNewline src) _).2.2]
  refine ⟨?_, ?_, rfl⟩
  · simp only [callEngine]
    rw [(feedSourceLines_calls B (jsSplitNewline src) _).1]
  · simp only [callEngine, List.append_nil]
    exact (feedSourceLines_calls B (jsSplitNewline src) _).2.1

theorem replay_flag (B : EngineBehavior) (fuel : Nat) :
    ∀ (τ : List SessionEvent) (s : Session),
      (replay B fuel s τ).isFullyInteractive =
        !(batchLoadedAndUnbroken B fuel s τ ||
          (!s.isFullyInteractive && noEffectiveBreak B fuel s τ)) := by
  intro τ
  induction τ with
  | nil =>
    intro s
    simp [replay, batchLoadedAndUnbroken, noEffectiveBreak]
  | cons e rest ih =>
    intro s
    simp only [replay, batchLoadedAndUnbroken, noEffectiveBreak]
    rw [ih, stepEvent_flag]
    cases hl : isLoadEvent e <;>
      cases hb : isEffectiveBreak s e <;>
        cases hP : batchLoadedAndUnbroken B fuel
          (stepEvent B fuel s e).sess rest <;>
          cases hN : noEffectiveBreak B fuel
            (stepEvent B fuel s e).sess rest <;>
            cases hF : s.isFullyInteractive <;>
              simp [hl, hb, hP, hN, hF]

theorem emitAll_eq :
    ∀ (acts : List UIAction) (s : Session),
      emitAll s acts =
        ⟨{ s with ui := applyActs s.ui acts }, [], acts, none⟩ := by
  intro acts
  induction acts with
  | nil => intro s; rfl
  | cons a rest ih =>
    intro s
    unfold emitAll
    rw [andThen_fault_none rfl]
    rw [ih]
    rfl

theorem renderItems_ok :
    ∀ (items : List OutputItem) (acts0 : List UIAction) (s : Session),
      renderAll items = .ok acts0 →
      renderItems s items =
        ⟨{ s with ui := applyActs s.ui acts0 }, [], acts0, none⟩ := by
  intro items
  induction items with
  | nil =>
    intro acts0 s h
    cases h
    rfl
  | cons item rest ih =>
    intro acts0 s h
    unfold renderAll at h
    cases hi : renderItem item with
    | error f =>
      rw [hi] at h
      cases h
    | ok a =>
      rw [hi] at h
      cases hr : renderAll rest with
      | error f =>
        rw [hr] at h
        cases h
      | ok as =>
        rw [hr] at h
        cases h
        unfold renderItems
        rw [hi]
        dsimp only
        rw [andThen_fault_none rfl]
        rw [ih as _ hr]
        rfl

theorem showOutputStep_ok (s : Session) (acts0 : List UIAction)
    (hr : renderAll s.eng.pending = .ok acts0) :
    showOutputStep s =
      ⟨{ s with
          eng := { s.eng with pending := [] }
          ui := applyActs s.ui acts0 },
        [.takeLatestOutput], acts0, none⟩ := by
  unfold showOutputStep takeLatestOutput
  rw [andThen_fault_none rfl]
  rw [renderItems_ok _ _ _ hr]
  rfl

theorem applyActs_append (u : UIState) (as bs : List UIAction) :
    applyActs u (as ++ bs) = applyActs (applyActs u as) bs := by
  unfold applyActs
  exact List.foldl_append _ _ _ _

theorem handleCurrentState_idle (B : EngineBehavior) (n : Nat) (s : Session)
    (acts0 : List UIAction) (hr : renderAll s.eng.pending = .ok acts0)
    (hst : s.eng.state = .Idle) :
    handleCurrentState B (n + 1) s =
      ⟨{ s with
          eng := { s.eng with pending := [] }
          ui := applyActs s.ui (acts0 ++
            [if s.isFullyInteractive then UIAction.setPrompt "] "
              else UIAction.clearPromptAndDisableInput]) },
        [.takeLatestOutput],
        acts0 ++
          [if s.isFullyInteractive then UIAction.setPrompt "] "
            else UIAction.clearPromptAndDisableInput],
        none⟩ := by
  unfold handleCurrentState
  rw [showOutputStep_ok s acts0 hr]
  rw [andThen_fault_none rfl]
  dsimp only
  rw [hst]
  rw [applyActs_append]
  cases hF : s.isFullyInteractive <;> simp [hF, emit, applyActs]

theorem handleCurrentState_awaiting (B : EngineBehavior) (n : Nat)
    (s : Session) (acts0 : List UIAction)
    (hr : renderAll s.eng.pending = .ok acts0)
    (hst : s.eng.state = .AwaitingInput) :
    handleCurrentState B (n + 1) s =
      ⟨{ s with
          eng := { s.eng with pending := [] }
          ui := applyActs s.ui (acts0 ++ [UIAction.setPrompt "? "]) },
        [.takeLatestOutput],
        acts0 ++ [UIAction.setPrompt "? "],
        none⟩ := by
  unfold handleCurrentState
  rw [showOutputStep_ok s acts0 hr]
  rw [andThen_fault_none rfl]
  dsimp only
  rw [hst]
  rw [applyActs_append]
  simp [emit, applyActs]

/-! ### C4 -/

/-- C4: on a turn that observes `Errored`, the driver fetches the latest
error.  If it is absent, the turn stops with the immediate fatal
assertion fault `takeLatestErrorAbsent` (never silently ignored).
Otherwise the error text is rendered as classified diagnostic lines
(`errorLineActions`: each split line gets a trailing newline, class
`error` for the first and `error-context` for the rest) and then
`handleCurrentState` is re-entered on the drained session within the
same turn, so `Errored` is a transient stop. -/
theorem c4_errored_turn_protocol (B : EngineBehavior) (n : Nat)
    (s : Session) (acts0 : List UIAction)
    (hr : renderAll s.eng.pending = .ok acts0)
    (hst : s.eng.state = .Errored) :
    (s.eng.latestError = none →
      handleCurrentState B (n + 1) s =
        ⟨{ s with
            eng := { s.eng with pending := [], latestError := none }
            ui := applyActs s.ui acts0 },
          [.takeLatestOutput, .takeLatestError], acts0,
          some .takeLatestErrorAbsent⟩) ∧
    (∀ err, s.eng.latestError = some err →
      handleCurrentState B (n + 1) s =
        (⟨{ s with
              eng := { s.eng with pending := [], latestError := none }
              ui := applyActs s.ui (acts0 ++ errorLineActions err) },
            [.takeLatestOutput, .takeLatestError],
            acts0 ++ errorLineActions err, none⟩ : StepResult).andThen
          (handleCurrentState B n)) := by
  constructor
  · intro he
    unfold handleCurrentState
    rw [showOutputStep_ok s acts0 hr]
    rw [andThen_fault_none rfl]
    dsimp only
    rw [hst]
    dsimp only [takeLatestError]
    rw [he]
    simp
  · intro err he
    unfold handleCurrentState
    rw [showOutputStep_ok s acts0 hr]
    rw [andThen_fault_none rfl]
    dsimp only
    rw [hst]
    dsimp only [takeLatestError]
    rw [he]
    dsimp only
    conv_lhs => rw [andThen_fault_none rfl]
    dsimp only
    rw [emitAll_eq]
    conv_lhs => rw [andThen_fault_none rfl]
    conv_rhs => rw [andThen_fault_none rfl]
    rw [applyActs_append]
    simp [List.append_assoc]

/-- C4 witness: concrete `Errored` turns, one with the error absent
(ending in the assertion fault) and one with a two-line error (rendered
as an `error` line and an `error-context` line, then re-dispatched). -/
theorem c4_errored_turn_protocol_witness :
    (handleCurrentState inertBehavior 1
        ⟨⟨.Errored, [], none, 0⟩, true, uiInit⟩).fault =
      some .takeLatestErrorAbsent ∧
    (handleCurrentState inertBehavior 2
        ⟨⟨.Errored, [], some "E1\nE2", 0⟩, true, uiInit⟩).acts.take 2 =
      [.printSpanWithClass ("E1" ++ "\n") .error,
        .printSpanWithClass ("E2" ++ "\n") .errorContext] := by
  constructor
  · have h := (c4_errored_turn_protocol inertBehavior 0
      ⟨⟨.Errored, [], none, 0⟩, true, uiInit⟩ [] rfl rfl).1 rfl
    rw [h]
  · have h := (c4_errored_turn_protocol inertBehavior 1
      ⟨⟨.Errored, [], some "E1\nE2", 0⟩, true, uiInit⟩ [] rfl rfl).2
      "E1\nE2" rfl
    rw [h]
    decide

/-! ### C1 -/

/-- C1: for every engine behaviour and every session reachable by host
events from a fresh session, a turn that observes `Idle` ends by
disabling input (`clearPromptAndDisableInput`, which sets the prompt to
the empty string, clears the edit buffer and disables the input
element — no prompt is shown) exactly when some `loadAndRunSourceCode`
call has happened with no effective break since, and otherwise ends by
setting the prompt to `"] "`; a turn that observes `AwaitingInput`
always ends by setting the prompt to `"? "`. -/
theorem c1_idle_and_awaiting_turns (B : EngineBehavior) (fuel n : Nat)
    (e0 : Engine) (seed : Nat) (τ : List SessionEvent) (s : Session)
    (hs : s = replay B fuel (initSession B e0 seed) τ)
    (acts0 : List UIAction) (hr : renderAll s.eng.pending = .ok acts0) :
    (s.eng.state = .Idle →
      handleCurrentState B (n + 1) s =
        ⟨{ s with
            eng := { s.eng with pending := [] }
            ui := applyActs s.ui (acts0 ++
              [if batchLoadedAndUnbroken B fuel (initSession B e0 seed) τ
                then UIAction.clearPromptAndDisableInput
                else UIAction.setPrompt "] "]) },
          [.takeLatestOutput],
          acts0 ++
            [if batchLoadedAndUnbroken B fuel (initSession B e0 seed) τ
              then UIAction.clearPromptAndDisableInput
              else UIAction.setPrompt "] "],
          none⟩) ∧
    (s.eng.state = .AwaitingInput →
      handleCurrentState B (n + 1) s =
        ⟨{ s with
            eng := { s.eng with pending := [] }
            ui := applyActs s.ui (acts0 ++ [UIAction.setPrompt "? "]) },
          [.takeLatestOutput],
          acts0 ++ [UIAction.setPrompt "? "],
          none⟩) := by
  have hflag : s.isFullyInteractive =
      !(batchLoadedAndUnbroken B fuel (initSession B e0 seed) τ) := by
    rw [hs, replay_flag]
    simp [initSession]
  constructor
  · intro hst
    rw [handleCurrentState_idle B n s acts0 hr hst]
    rw [hflag]
    cases hP : batchLoadedAndUnbroken B fuel (initSession B e0 seed) τ <;>
      simp
  · intro hst
    exact handleCurrentState_awaiting B n s acts0 hr hst

/-- C1 witness: after a batch load with no break the idle turn disables
input; a fresh session whose engine awaits input gets the `"? "`
prompt. -/
theorem c1_idle_and_awaiting_turns_witness :
    (handleCurrentState inertBehavior 1
        (replay inertBehavior 1 (initSession inertBehavior engIdle 0)
          [.load "10 PRINT 1"])).acts =
      [UIAction.clearPromptAndDisableInput] ∧
    (handleCurrentState inertBehavior 1
        (replay inertBehavior 1 (initSession inertBehavior engAwaiting 0)
          [])).acts =
      [UIAction.setPrompt "? "] := by
  constructor
  · have h := (c1_idle_and_awaiting_turns inertBehavior 1 0 engIdle 0
      [.load "10 PRINT 1"] _ rfl [] rfl).1 rfl
    rw [h]
    decide
  · have h := (c1_idle_and_awaiting_turns inertBehavior 1 0 engAwaiting 0
      [] _ rfl [] rfl).2 rfl
    rw [h]
    rfl

/-! ### C2 -/

/-- C2: `submitUserInput` in `Idle` starts evaluating the input as a
new top-level command; in `AwaitingInput` it delivers the input as the
pending `INPUT` value; in both cases the prompt is cleared
(`setPrompt ""`) and a turn (`handleCurrentState`) is taken
immediately.  In `Running` or `Errored` it throws the
`submitInInvalidState` fault with no mutating engine call, no UI
action, and no session change (the state query `get_state` is a pure
observation). -/
theorem c2_submit_protocol (B : EngineBehavior) (fuel : Nat) (s : Session)
    (input : String) :
    (s.eng.state = .Idle →
      submitUserInput B fuel s input =
        (⟨{ s with
              eng := B.step (.startEvaluating input) s.eng
              ui := uiSetPrompt s.ui "" },
            [.startEvaluating input], [.setPrompt ""], none⟩ :
            StepResult).andThen
          (handleCurrentState B fuel)) ∧
    (s.eng.state = .AwaitingInput →
      submitUserInput B fuel s input =
        (⟨{ s with
              eng := B.step (.provideInput input) s.eng
              ui := uiSetPrompt s.ui "" },
            [.provideInput input], [.setPrompt ""], none⟩ :
            StepResult).andThen
          (handleCurrentState B fuel)) ∧
    (s.eng.state ≠ .Idle → s.eng.state ≠ .AwaitingInput →
      submitUserInput B fuel s input =
        ⟨s, [], [], some (.submitInInvalidState s.eng.state)⟩) := by
  refine ⟨?_, ?_, ?_⟩
  · intro h1
    unfold submitUserInput
    rw [if_pos h1]
    conv_lhs => rw [andThen_fault_none rfl]
    conv_rhs => rw [andThen_fault_none rfl]
    dsimp only
    conv_lhs => rw [andThen_fault_none rfl]
    rfl
  · intro h2
    unfold submitUserInput
    have h1 : ¬ s.eng.state = .Idle := by rw [h2]; intro hc; cases hc
    rw [if_neg h1, if_pos h2]
    conv_lhs => rw [andThen_fault_none rfl]
    conv_rhs => rw [andThen_fault_none rfl]
    dsimp only
    conv_lhs => rw [andThen_fault_none rfl]
    rfl
  · intro h1 h2
    unfold submitUserInput
    rw [if_neg h1, if_neg h2]

/-- C2 witness: concrete submissions in `Idle` (starts evaluating the
command, clears the prompt), in `AwaitingInput` (provides the value),
and in `Errored` (throws, with no engine call and no change). -/
theorem c2_submit_protocol_witness :
    (submitUserInput inertBehavior 1 sessIdle "PRINT 1").calls.head? =
      some (.startEvaluating "PRINT 1") ∧
    (submitUserInput inertBehavior 1 sessIdle "PRINT 1").acts.head? =
      some (.setPrompt "") ∧
    (submitUserInput inertBehavior 1 sessAwaiting "42").calls.head? =
      some (.provideInput "42") ∧
    submitUserInput inertBehavior 1 sessErrored "X" =
      ⟨sessErrored, [], [], some (.submitInInvalidState .Errored)⟩ := by
  refine ⟨?_, ?_, ?_, ?_⟩
  · rw [(c2_submit_protocol inertBehavior 1 sessIdle "PRINT 1").1 rfl]
    decide
  · rw [(c2_submit_protocol inertBehavior 1 sessIdle "PRINT 1").1 rfl]
    decide
  · rw [(c2_submit_protocol inertBehavior 1 sessAwaiting "42").2.1 rfl]
    decide
  · exact (c2_submit_protocol inertBehavior 1 sessErrored "X").2.2
      (by decide) (by decide)

/-! ### C3 -/

/-- C3: `breakAtCurrentLocation` in `Idle` is a strict no-op — no state
change, no engine call, no UI action, no turn.  In `AwaitingInput` or
`Running` it sets `isFullyInteractive`, commits the current prompt to
output, clears the prompt, requests `break_at_current_location` from
the engine, and takes a turn. -/
theorem c3_break_protocol (B : EngineBehavior) (fuel : Nat) (s : Session) :
    (s.eng.state = .Idle →
      breakAtCurrentLocation B fuel s = StepResult.pure s) ∧
    (s.eng.state = .AwaitingInput ∨ s.eng.state = .Running →
      breakAtCurrentLocation B fuel s =
        (⟨{ s with
              isFullyInteractive := true
              eng := B.step .breakAtCurrentLocation s.eng
              ui := uiSetPrompt (uiCommitCurrentPromptToOutput s.ui "") "" },
            [.breakAtCurrentLocation],
            [.commitCurrentPromptToOutput "", .setPrompt ""], none⟩ :
            StepResult).andThen
          (handleCurrentState B fuel)) := by
  constructor
  · intro h
    unfold breakAtCurrentLocation
    rw [if_neg (by simp [h])]
  · intro h
    unfold breakAtCurrentLocation
    rw [if_pos h]
    conv_lhs => rw [andThen_fault_none rfl]
    conv_rhs => rw [andThen_fault_none rfl]
    dsimp only
    conv_lhs => rw [andThen_fault_none rfl]
    dsimp only
    conv_lhs => rw [andThen_fault_none rfl]
    dsimp only
    conv_lhs => rw [andThen_fault_none rfl]
    rfl

/-- C3 witness: breaking while `Idle` changes nothing at all; breaking
while `Running` flips the session to fully interactive, commits the
prompt, clears it, and requests the engine break. -/
theorem c3_break_protocol_witness :
    breakAtCurrentLocation inertBehavior 1 sessIdle =
      StepResult.pure sessIdle ∧
    (breakAtCurrentLocation inertBehavior 1 sessRunning).calls.head? =
      some .breakAtCurrentLocation ∧
    (breakAtCurrentLocation inertBehavior 1 sessRunning).acts.take 2 =
      [.commitCurrentPromptToOutput "", .setPrompt ""] ∧
    (breakAtCurrentLocation inertBehavior 1
        sessRunning).sess.isFullyInteractive = true := by
  refine ⟨?_, ?_, ?_, ?_⟩
  · exact (c3_break_protocol inertBehavior 1 sessIdle).1 rfl
  · rw [(c3_break_protocol inertBehavior 1 sessRunning).2 (Or.inr rfl)]
    decide
  · rw [(c3_break_protocol inertBehavior 1 sessRunning).2 (Or.inr rfl)]
    decide
  · rw [(c3_break_protocol inertBehavior 1 sessRunning).2 (Or.inr rfl)]
    decide

/-! ### C6 -/

/-- C6: the rendering of a drained output event is by exhaustive
dispatch over the closed kind set.  `Print` prints the text verbatim
with no appended terminator; `Trace` prints the text plus a trailing
space with class `info`; `Break`, `Warning`, `Reenter` and
`ExtraIgnored` each print the text plus a terminating newline with
class `warning`; every tag outside the set yields the
unreachable-assertion fault. -/
theorem c6_output_dispatch :
    (∀ txt : String,
      renderItem ⟨outPrint, txt⟩ = .ok (.print txt) ∧
      renderItem ⟨outTrace, txt⟩ =
        .ok (.printSpanWithClass (txt ++ " ") .info) ∧
      renderItem ⟨outBreak, txt⟩ =
        .ok (.printSpanWithClass (txt ++ "\n") .warning) ∧
      renderItem ⟨outWarning, txt⟩ =
        .ok (.printSpanWithClass (txt ++ "\n") .warning) ∧
      renderItem ⟨outReenter, txt⟩ =
        .ok (.printSpanWithClass (txt ++ "\n") .warning) ∧
      renderItem ⟨outExtraIgnored, txt⟩ =
        .ok (.printSpanWithClass (txt ++ "\n") .warning)) ∧
    (∀ (t : Nat) (txt : String),
      t ≠ outPrint → t ≠ outTrace → t ≠ outBreak → t ≠ outWarning →
      t ≠ outReenter → t ≠ outExtraIgnored →
      renderItem ⟨t, txt⟩ = .error (.unreachableOutputType t)) := by
  constructor
  · intro txt
    exact ⟨rfl, rfl, rfl, rfl, rfl, rfl⟩
  · intro t txt h1 h2 h3 h4 h5 h6
    unfold renderItem
    rw [if_neg h1, if_neg h2, if_neg (by simp [h3, h4, h5, h6])]

/-- C6 witness: a tag outside the closed set faults; a `Print` event
renders verbatim. -/
theorem c6_output_dispatch_witness :
    renderItem ⟨7, "boom"⟩ = .error (.unreachableOutputType 7) ∧
    renderItem ⟨outPrint, "HI"⟩ = .ok (.print "HI") :=
  ⟨c6_output_dispatch.2 7 "boom" (by decide) (by decide) (by decide)
      (by decide) (by decide) (by decide),
    (c6_output_dispatch.1 "HI").1⟩

/-! ### C7 -/

theorem join_singleton_append (xs : List String) (y : String) :
    String.join (xs ++ [y]) = String.join xs ++ y := by
  unfold String.join
  rw [List.foldl_append]
  rfl

/-- C7: `print` clears the partial-line buffer when the text ends with
a newline and otherwise appends the new node to it; `setPrompt` removes
every pending partial-line node from the output region, re-renders them
as a prefix of the prompt, and leaves the buffer empty.  In particular,
after `print "AB"`, `print "CD\n"` and `setPrompt "] "` the committed
output holds exactly the single terminated line `"ABCD"` and the prompt
is exactly `"] "` with an empty buffer. -/
theorem c7_partial_line_buffer_and_prompt :
    (∀ (u : UIState) (text : String) (cls : Option SpanClassName),
      (uiPrintCore u text cls).latestPartialLine =
        if endsWithNewline text then []
        else u.latestPartialLine ++ [⟨u.nextId, text, cls⟩]) ∧
    (∀ (u : UIState) (p : String),
      (uiSetPrompt u p).latestPartialLine = [] ∧
      (uiSetPrompt u p).promptChildren =
        u.latestPartialLine ++ [⟨u.nextId, p, none⟩] ∧
      (uiSetPrompt u p).outputChildren =
        u.outputChildren.filter
          (fun n => ¬ n.id ∈ u.latestPartialLine.map DomNode.id)) ∧
    (committedText
        (uiSetPrompt (uiPrint (uiPrint uiInit "AB") "CD\n") "] ") =
      "ABCD\n" ∧
    jsSplitNewline (committedText
        (uiSetPrompt (uiPrint (uiPrint uiInit "AB") "CD\n") "] ")) =
      ["ABCD", ""] ∧
    promptText (uiSetPrompt (uiPrint (uiPrint uiInit "AB") "CD\n") "] ") =
      "] " ∧
    (uiSetPrompt (uiPrint (uiPrint uiInit "AB")
        "CD\n") "] ").latestPartialLine = []) := by
  refine ⟨fun u text cls => rfl, fun u p => ?_, by decide⟩
  unfold uiSetPrompt
  by_cases hl : u.latestPartialLine.length > 0
  · rw [if_pos hl]
    exact ⟨rfl, rfl, rfl⟩
  · rw [if_neg hl]
    have hnil : u.latestPartialLine = [] :=
      List.eq_nil_of_length_eq_zero (Nat.eq_zero_of_not_pos hl)
    rw [hnil]
    refine ⟨rfl, rfl, ?_⟩
    symm
    rw [List.filter_eq_self]
    intro a _
    simp

/-! ### C9 -/

/-- C9: `clearScreen` discards every committed output node but leaves
the partial-line buffer untouched, so a later `setPrompt` still
re-attaches the stale fragments as a prefix of the prompt even though
they were erased from the output region. -/
theorem c9_clear_screen_preserves_partial :
    (∀ u : UIState,
      (uiClearScreen u).outputChildren = [] ∧
      (uiClearScreen u).latestPartialLine = u.latestPartialLine) ∧
    (∀ (u : UIState) (p : String),
      promptText (uiSetPrompt (uiClearScreen u) p) =
        String.join (u.latestPartialLine.map DomNode.text) ++ p) ∧
    (promptText (uiSetPrompt (uiClearScreen (uiPrint uiInit "X")) "] ") =
      "X] " ∧
    (uiClearScreen (uiPrint uiInit "X")).outputChildren = []) := by
  refine ⟨fun u => ⟨rfl, rfl⟩, fun u p => ?_, by decide⟩
  unfold uiClearScreen uiSetPrompt
  by_cases hl : u.latestPartialLine.length > 0
  · rw [if_pos hl]
    unfold promptText
    rw [List.map_append]
    dsimp only [List.map_cons, List.map_nil]
    rw [join_singleton_append]
  · rw [if_neg hl]
    have hnil : u.latestPartialLine = [] :=
      List.eq_nil_of_length_eq_zero (Nat.eq_zero_of_not_pos hl)
    rw [hnil]
    rfl

/-! ### C8 -/

/-- C8: on every up/down navigation the live edit buffer is first
snapshotted into the scratch slot at the cursor; the cursor then moves
by ±1 only when the result is in bounds, loading that scratch slot into
the edit buffer with the caret at its end; out-of-bounds navigation
changes neither the cursor nor the edit buffer.  A non-empty submission
appends to the committed history, rebuilds scratch as
`committed ++ [""]` and resets the cursor to that last slot; an empty
submission changes nothing. -/
theorem c8_history_navigation_and_submission :
    (∀ (u : UIState) (d : HistoryDir),
      (uiArrowNav u d).temporaryInputHistory =
        u.temporaryInputHistory.set u.temporaryInputHistoryIndex
          u.inputValue) ∧
    (∀ (u : UIState) (d : HistoryDir),
      ((0 ≤ (u.temporaryInputHistoryIndex : Int) +
            (match d with | .up => -1 | .down => 1) ∧
          (u.temporaryInputHistoryIndex : Int) +
            (match d with | .up => -1 | .down => 1) <
            (u.temporaryInputHistory.length : Int)) →
        (uiArrowNav u d).temporaryInputHistoryIndex =
          ((u.temporaryInputHistoryIndex : Int) +
            (match d with | .up => -1 | .down => 1)).toNat ∧
        (uiArrowNav u d).inputValue =
          (u.temporaryInputHistory.set u.temporaryInputHistoryIndex
            u.inputValue).getD
            ((u.temporaryInputHistoryIndex : Int) +
              (match d with | .up => -1 | .down => 1)).toNat "" ∧
        (uiArrowNav u d).selStart = (uiArrowNav u d).inputValue.length ∧
        (uiArrowNav u d).selEnd = (uiArrowNav u d).inputValue.length) ∧
      (¬ (0 ≤ (u.temporaryInputHistoryIndex : Int) +
            (match d with | .up => -1 | .down => 1) ∧
          (u.temporaryInputHistoryIndex : Int) +
            (match d with | .up => -1 | .down => 1) <
            (u.temporaryInputHistory.length : Int)) →
        (uiArrowNav u d).temporaryInputHistoryIndex =
          u.temporaryInputHistoryIndex ∧
        (uiArrowNav u d).inputValue = u.inputValue)) ∧
    (∀ u : UIState, u.inputValue ≠ "" →
      (uiRecordSubmission u).committedInputHistory =
        u.committedInputHistory ++ [u.inputValue] ∧
      (uiRecordSubmission u).temporaryInputHistory =
        (u.committedInputHistory ++ [u.inputValue]) ++ [""] ∧
      (uiRecordSubmission u).temporaryInputHistoryIndex =
        (u.committedInputHistory ++ [u.inputValue]).length) ∧
    (∀ u : UIState, u.inputValue = "" → uiRecordSubmission u = u) := by
  refine ⟨?_, ?_, ?_, ?_⟩
  · intro u d
    unfold uiArrowNav
    dsimp only
    split <;> rfl
  · intro u d
    constructor
    · intro hIn
      unfold uiArrowNav
      dsimp only
      rw [if_pos ⟨hIn.1, by rw [List.length_set]; exact hIn.2⟩]
      exact ⟨rfl, rfl, rfl, rfl⟩
    · intro hOut
      unfold uiArrowNav
      dsimp only
      rw [if_neg (fun hc =>
        hOut ⟨hc.1, by rw [List.length_set] at hc; exact hc.2⟩)]
      exact ⟨rfl, rfl⟩
  · intro u h
    unfold uiRecordSubmission
    rw [if_pos h]
    refine ⟨rfl, rfl, ?_⟩
    simp
  · intro u h
    unfold uiRecordSubmission
    rw [if_neg (by simp [h])]

/-- C8 witness: navigating up from the last slot snapshots the buffer
and loads the previous entry with the caret at its end; navigating up
at the first slot changes nothing visible; a non-empty submission
rebuilds the history and an empty one leaves it alone. -/
theorem c8_history_navigation_and_submission_witness :
    ((uiArrowNav uiHistLast HistoryDir.up).temporaryInputHistoryIndex =
        0 ∧
      (uiArrowNav uiHistLast HistoryDir.up).inputValue = "A" ∧
      (uiArrowNav uiHistLast HistoryDir.up).temporaryInputHistory =
        ["A", "B"]) ∧
    ((uiArrowNav uiHistFirst HistoryDir.up).temporaryInputHistoryIndex =
        0 ∧
      (uiArrowNav uiHistFirst HistoryDir.up).inputValue = "C") ∧
    (uiRecordSubmission uiRunPending).committedInputHistory = ["RUN"] ∧
    uiRecordSubmission uiInit = uiInit := by
  refine ⟨⟨?_, ?_, ?_⟩, ⟨?_, ?_⟩, ?_, ?_⟩
  · exact ((c8_history_navigation_and_submission.2.1 uiHistLast
      HistoryDir.up).1 (by decide)).1
  · exact ((c8_history_navigation_and_submission.2.1 uiHistLast
      HistoryDir.up).1 (by decide)).2.1
  · exact c8_history_navigation_and_submission.1 uiHistLast HistoryDir.up
  · exact ((c8_history_navigation_and_submission.2.1 uiHistFirst
      HistoryDir.up).2 (by decide)).1
  · exact ((c8_history_navigation_and_submission.2.1 uiHistFirst
      HistoryDir.up).2 (by decide)).2
  · exact (c8_history_navigation_and_submission.2.2.1 uiRunPending
      (by decide)).1
  · exact c8_history_navigation_and_submission.2.2.2 uiInit rfl

/-! ### C10 -/

theorem hist_emitInvariant : EmitInvariant histOf := by
  constructor
  · intro s a
    cases a with
    | print msg => rfl
    | printSpanWithClass msg cls => rfl
    | setPrompt p =>
      show histOf { s with ui := uiSetPrompt s.ui p } = histOf s
      unfold uiSetPrompt
      dsimp only
      split <;> rfl
    | commitCurrentPromptToOutput t => rfl
    | clearScreen => rfl
    | clearInput => rfl
    | clearPromptAndDisableInput =>
      show histOf
          { s with ui := uiClearPromptAndDisableInput s.ui } = histOf s
      unfold uiClearPromptAndDisableInput uiClearInput uiSetPrompt
      dsimp only
      split <;> rfl
    | scheduleTimeout ms => rfl
    | consoleWarn msg => rfl
  · intro s e
    rfl

theorem onSubmitCallback_hist (B : EngineBehavior) (fuel : Nat)
    (s : Session) :
    histOf (onSubmitCallback B fuel s).sess = histOf s := by
  unfold onSubmitCallback
  dsimp only
  split
  · rw [andThen_sess_proj histOf _ _ (fun s1 =>
      breakAtCurrentLocation_inv ⟨hist_emitInvariant, fun _ _ => rfl⟩
        B fuel s1)]
    exact hist_emitInvariant.1 s _
  · split
    · rfl
    · rw [andThen_sess_proj histOf]
      · exact hist_emitInvariant.1 s _
      · intro s1
        rw [andThen_sess_proj histOf _ _
          (fun s2 => hist_emitInvariant.1 s2 _)]
        exact submitUserInput_inv hist_emitInvariant B fuel s1 _

/-- C10: every form submission first records the submitted text into
the input history (the `ui.ts` listener runs before the driver
callback), and for every engine state — including `Running` and
`Errored`, where the driver then ignores the input, and including the
break emoji, which only triggers a break — a non-empty submission lands
in the committed history, rebuilds scratch as `committed ++ [""]`, and
resets the cursor to the last slot. -/
theorem c10_submission_always_recorded (B : EngineBehavior) (fuel : Nat)
    (s : Session) (text : String) :
    (onFormSubmit B fuel s text =
      (StepResult.pure { s with ui := uiRecordSubmission { s.ui with
          inputValue := text, selStart := text.length, selEnd := text.length } }).andThen
        (onSubmitCallback B fuel)) ∧
    (text ≠ "" →
      histOf (onFormSubmit B fuel s text).sess =
        (s.ui.committedInputHistory ++ [text],
          (s.ui.committedInputHistory ++ [text]) ++ [""],
          (s.ui.committedInputHistory ++ [text]).length)) := by
  constructor
  · rfl
  · intro h
    have h1 : (onFormSubmit B fuel s text).sess =
        (onSubmitCallback B fuel { s with ui := uiRecordSubmission { s.ui with
          inputValue := text, selStart := text.length, selEnd := text.length } }).sess :=
      rfl
    rw [h1, onSubmitCallback_hist]
    unfold histOf uiRecordSubmission
    rw [if_pos h]
    dsimp only
    simp

/-- C10 witness: the break emoji submitted while `Running` (where it
only triggers a break) and a command submitted while `Errored` (where
the driver ignores it) are both recorded into the history. -/
theorem c10_submission_always_recorded_witness :
    histOf (onFormSubmit inertBehavior 1 sessRunning breakEmoji).sess =
      ([breakEmoji], [breakEmoji, ""], 1) ∧
    histOf (onFormSubmit inertBehavior 1 sessErrored "LIST").sess =
      (["LIST"], ["LIST", ""], 1) := by
  constructor
  · exact (c10_submission_always_recorded inertBehavior 1 sessRunning
      breakEmoji).2 (by decide)
  · exact (c10_submission_always_recorded inertBehavior 1 sessErrored
      "LIST").2 (by decide)

end Abasic
